import Mathlib

/-
  Verification development for the real-time clinic messenger
  (multi-instance coordination layer: connection registry, room
  subscriptions, relay protocol, presence aggregation).

  The definitions below are shallow embeddings of the JavaScript source:
  - RedisManager (redis-manager module): publishToRoom, subscribeToRoom,
    storeConnection, removeConnection, getRoomStats;
  - server/index.js: SERVER_ID, setupRedisMessageHandler, join_room,
    send_message, disconnect handlers, subscribedRooms tracking.
-/

namespace ClinicMessenger

/-- A parsed registry value, i.e. the JSON object stored under a
`connection:{socketId}` key by `storeConnection` (the spread of the
handler's connectionInfo plus the overridden `serverId` and the added
`timestamp`). -/
structure RegValue where
  userId : String
  roomId : String
  userName : String
  socketId : String
  joinedAt : String
  serverId : String
  timestamp : String
deriving Repr, DecidableEq

/-- The raw state of one registry entry as observed during a scan:
`missing` models `GET` returning null, `corrupt` models a value on which
`JSON.parse` throws, `ok` a parseable value. -/
inductive RawVal where
  | missing : RawVal
  | corrupt : RawVal
  | ok : RegValue → RawVal
deriving Repr, DecidableEq

/-- The registry contents at a point in time: the `connection:*` keys in
scan order, each with its raw value. -/
abbrev Registry := List (String × RawVal)

/-- One element of the roster built by `getRoomStats` (`users.push` with
`joinedAt` taken from the stored `timestamp`). -/
structure RosterEntry where
  userId : String
  userName : String
  serverId : String
  joinedAt : String
deriving Repr, DecidableEq

/-- The loop state of `getRoomStats`: `roomUserCount`, the `users`
array, the `userIds` dedup set (as the list of ids in insertion order),
and the keys deleted by the corrupt-entry cleanup. -/
structure ScanState where
  count : Nat
  users : List RosterEntry
  seen : List String
  deleted : List String
deriving Repr, DecidableEq

/-- One iteration of the `for (const key of keys)` loop in
`RedisManager.getRoomStats`: a null `GET` is skipped, an unparseable
value is deleted, a parsed connection is counted when its `roomId`
matches and its `userId` is new. -/
def scanStep (roomId : String) (s : ScanState) (e : String × RawVal) : ScanState :=
  match e.2 with
  | RawVal.missing => s
  | RawVal.corrupt => { s with deleted := s.deleted ++ [e.1] }
  | RawVal.ok c =>
    if c.roomId = roomId ∧ c.userId ∉ s.seen then
      { s with
        count := s.count + 1,
        seen := s.seen ++ [c.userId],
        users := s.users ++ [⟨c.userId, c.userName, c.serverId, c.timestamp⟩] }
    else s

/-- `RedisManager.getRoomStats` as a fold of the scan loop over the
registry contents, starting from empty count/users/dedup-set. -/
def getRoomStats (roomId : String) (reg : Registry) : ScanState :=
  reg.foldl (scanStep roomId) ⟨0, [], [], []⟩

/-- The value returned by `getRoomStats` (roomId, userCount, users). -/
structure RoomStats where
  roomId : String
  userCount : Nat
  users : List RosterEntry
deriving Repr, DecidableEq

/-- The returned statistics of a scan (the `deleted` component is the
side effect, not part of the return value). -/
def roomStatsOf (roomId : String) (reg : Registry) : RoomStats :=
  ⟨roomId, (getRoomStats roomId reg).count, (getRoomStats roomId reg).users⟩

/-- Spec-side definition: the parseable registry values whose `roomId`
equals the queried room, in scan order. -/
def matchingValues (roomId : String) : Registry → List RegValue
  | [] => []
  | e :: rest =>
    match e.2 with
    | RawVal.ok c =>
      if c.roomId = roomId then c :: matchingValues roomId rest
      else matchingValues roomId rest
    | _ => matchingValues roomId rest

/-- The roster entry built from a parsed registry value. -/
def rosterOf (c : RegValue) : RosterEntry :=
  ⟨c.userId, c.userName, c.serverId, c.timestamp⟩

/-- Spec-side definition: deduplication by `userId` where the first
occurrence in scan order wins for the roster metadata. -/
def dedupFirst : List RegValue → List String → List RosterEntry
  | [], _ => []
  | c :: cs, seen =>
    if c.userId ∈ seen then dedupFirst cs seen
    else rosterOf c :: dedupFirst cs (c.userId :: seen)

/-- The keys of the registry entries whose value fails to parse. -/
def corruptKeys : Registry → List String
  | [] => []
  | e :: rest =>
    match e.2 with
    | RawVal.corrupt => e.1 :: corruptKeys rest
    | _ => corruptKeys rest

/-- The registry after a scan has healed it: registry keys are unique,
so deleting every corrupt entry's key removes exactly the corrupt
entries. -/
def afterScan : Registry → Registry
  | [] => []
  | e :: rest =>
    match e.2 with
    | RawVal.corrupt => afterScan rest
    | _ => e :: afterScan rest

lemma dedupFirst_congr (cs : List RegValue) :
    ∀ s₁ s₂ : List String, (∀ x, x ∈ s₁ ↔ x ∈ s₂) →
      dedupFirst cs s₁ = dedupFirst cs s₂ := by
  induction cs with
  | nil => intro s₁ s₂ _; rfl
  | cons c cs ih =>
    intro s₁ s₂ h
    simp only [dedupFirst]
    by_cases hc : c.userId ∈ s₁
    · rw [if_pos hc, if_pos ((h _).mp hc)]
      exact ih _ _ h
    · rw [if_neg hc, if_neg (fun hx => hc ((h _).mpr hx))]
      refine congrArg _ (ih _ _ ?_)
      intro x
      simp only [List.mem_cons]
      exact or_congr Iff.rfl (h x)

lemma scan_foldl_eq (roomId : String) :
    ∀ (reg : Registry) (s : ScanState),
      reg.foldl (scanStep roomId) s =
        ⟨s.count + (dedupFirst (matchingValues roomId reg) s.seen).length,
         s.users ++ dedupFirst (matchingValues roomId reg) s.seen,
         s.seen ++ (dedupFirst (matchingValues roomId reg) s.seen).map RosterEntry.userId,
         s.deleted ++ corruptKeys reg⟩ := by
  intro reg
  induction reg with
  | nil =>
    intro s
    simp [matchingValues, corruptKeys, dedupFirst]
  | cons e rest ih =>
    intro s
    match hv : e.2 with
    | RawVal.missing =>
      simp only [List.foldl_cons, scanStep, hv, matchingValues, corruptKeys]
      exact ih s
    | RawVal.corrupt =>
      simp only [List.foldl_cons, scanStep, hv, matchingValues, corruptKeys]
      rw [ih]
      simp
    | RawVal.ok c =>
      simp only [List.foldl_cons, scanStep, hv, matchingValues, corruptKeys]
      by_cases hroom : c.roomId = roomId
      · by_cases hseen : c.userId ∈ s.seen
        · rw [if_neg (by simp [hseen]), if_pos hroom]
          rw [ih s]
          simp [dedupFirst, hseen]
        · rw [if_pos ⟨hroom, hseen⟩, if_pos hroom, ih]
          have hcong := dedupFirst_congr (matchingValues roomId rest)
            (s.seen ++ [c.userId]) (c.userId :: s.seen)
            (by intro x; simp [or_comm])
          have hd : dedupFirst (c :: matchingValues roomId rest) s.seen
              = rosterOf c :: dedupFirst (matchingValues roomId rest) (c.userId :: s.seen) := by
            simp [dedupFirst, hseen]
          rw [hd, hcong]
          simp [rosterOf]
          omega
      · rw [if_neg (by simp [hroom]), if_neg hroom]
        exact ih s

lemma dedupFirst_userIds_mem (cs : List RegValue) :
    ∀ seen u, u ∈ (dedupFirst cs seen).map RosterEntry.userId ↔
      (u ∈ cs.map RegValue.userId ∧ u ∉ seen) := by
  induction cs with
  | nil => intro seen u; simp [dedupFirst]
  | cons c cs ih =>
    intro seen u
    simp only [dedupFirst]
    by_cases hc : c.userId ∈ seen
    · rw [if_pos hc, ih]
      simp only [List.map_cons, List.mem_cons]
      constructor
      · rintro ⟨hm, hn⟩; exact ⟨Or.inr hm, hn⟩
      · rintro ⟨hm | hm, hn⟩
        · exact absurd (hm ▸ hc) hn
        · exact ⟨hm, hn⟩
    · rw [if_neg hc]
      simp only [List.map_cons, List.mem_cons, rosterOf, ih]
      constructor
      · rintro (h | ⟨hm, hn⟩)
        · exact ⟨Or.inl h, h ▸ hc⟩
        · exact ⟨Or.inr hm, fun hx => hn (by simp [hx])⟩
      · rintro ⟨hm | hm, hn⟩
        · exact Or.inl hm
        · by_cases he : u = c.userId
          · exact Or.inl he
          · exact Or.inr ⟨hm, by simp [he, hn]⟩

lemma dedupFirst_userIds_nodup (cs : List RegValue) :
    ∀ seen, ((dedupFirst cs seen).map RosterEntry.userId).Nodup := by
  induction cs with
  | nil => intro seen; simp [dedupFirst]
  | cons c cs ih =>
    intro seen
    simp only [dedupFirst]
    by_cases hc : c.userId ∈ seen
    · rw [if_pos hc]; exact ih seen
    · rw [if_neg hc]
      simp only [List.map_cons, List.nodup_cons, rosterOf]
      refine ⟨fun hm => ?_, ih _⟩
      rw [dedupFirst_userIds_mem] at hm
      exact hm.2 (List.mem_cons_self _ _)

lemma dedupFirst_length_card (cs : List RegValue) :
    (dedupFirst cs []).length = ((cs.map RegValue.userId).toFinset).card := by
  have hn := dedupFirst_userIds_nodup cs []
  have hlen : (dedupFirst cs []).length
      = ((dedupFirst cs []).map RosterEntry.userId).length := by
    simp
  rw [hlen, ← List.toFinset_card_of_nodup hn]
  congr 1
  ext u
  simp only [List.mem_toFinset, dedupFirst_userIds_mem]
  simp

lemma matchingValues_afterScan (roomId : String) (reg : Registry) :
    matchingValues roomId (afterScan reg) = matchingValues roomId reg := by
  induction reg with
  | nil => rfl
  | cons e rest ih =>
    match hv : e.2 with
    | RawVal.missing => simp [afterScan, matchingValues, hv, ih]
    | RawVal.corrupt => simp [afterScan, matchingValues, hv, ih]
    | RawVal.ok c => simp [afterScan, matchingValues, hv, ih]

lemma matchingValues_append (roomId : String) (a b : Registry) :
    matchingValues roomId (a ++ b) =
      matchingValues roomId a ++ matchingValues roomId b := by
  induction a with
  | nil => rfl
  | cons e rest ih =>
    match hv : e.2 with
    | RawVal.missing => simp [matchingValues, hv, ih]
    | RawVal.corrupt => simp [matchingValues, hv, ih]
    | RawVal.ok c =>
      by_cases hroom : c.roomId = roomId
      · simp [matchingValues, hv, hroom, ih]
      · simp [matchingValues, hv, hroom, ih]

lemma corruptKeys_append (a b : Registry) :
    corruptKeys (a ++ b) = corruptKeys a ++ corruptKeys b := by
  induction a with
  | nil => rfl
  | cons e rest ih =>
    match hv : e.2 with
    | RawVal.missing => simp [corruptKeys, hv, ih]
    | RawVal.corrupt => simp [corruptKeys, hv, ih]
    | RawVal.ok c => simp [corruptKeys, hv, ih]

/-- C2: getRoomStats is a pure function of the registry contents: its
userCount is the number of distinct userIds among the parseable entries
whose roomId matches (entries of other rooms excluded), its roster is
deduplicated by userId with the first occurrence in scan order winning,
and re-running the scan on the self-healed registry returns the same
statistics. -/
theorem getRoomStats_pure_dedup (roomId : String) (reg : Registry) :
    (roomStatsOf roomId reg).userCount
        = ((matchingValues roomId reg).map RegValue.userId).toFinset.card
      ∧ (roomStatsOf roomId reg).users = dedupFirst (matchingValues roomId reg) []
      ∧ roomStatsOf roomId (afterScan reg) = roomStatsOf roomId reg := by
  have h1 := scan_foldl_eq roomId reg ⟨0, [], [], []⟩
  have h2 := scan_foldl_eq roomId (afterScan reg) ⟨0, [], [], []⟩
  refine ⟨?_, ?_, ?_⟩
  · simp only [roomStatsOf, getRoomStats, h1, Nat.zero_add]
    exact dedupFirst_length_card _
  · simp only [roomStatsOf, getRoomStats, h1]
    simp
  · simp only [roomStatsOf, getRoomStats, h1, h2, matchingValues_afterScan]

/-- C7: every registry entry whose value fails to parse is deleted by
the scan and excluded from the returned statistics, and the scan of the
remaining keys continues: the statistics over a registry with a corrupt
entry spliced in equal the statistics without it, the corrupt entry's
key is deleted, and the deleted keys are exactly the corrupt ones. -/
theorem corrupt_entries_self_healed (roomId k : String) (pre post reg : Registry) :
    (getRoomStats roomId reg).deleted = corruptKeys reg
      ∧ roomStatsOf roomId (pre ++ (k, RawVal.corrupt) :: post)
          = roomStatsOf roomId (pre ++ post)
      ∧ k ∈ (getRoomStats roomId (pre ++ (k, RawVal.corrupt) :: post)).deleted := by
  refine ⟨?_, ?_, ?_⟩
  · rw [getRoomStats, scan_foldl_eq]
    simp
  · have hm : matchingValues roomId (pre ++ (k, RawVal.corrupt) :: post)
        = matchingValues roomId (pre ++ post) := by
      rw [matchingValues_append, matchingValues_append]
      simp [matchingValues]
    simp only [roomStatsOf, getRoomStats, scan_foldl_eq, hm]
  · rw [getRoomStats, scan_foldl_eq]
    simp only [List.nil_append]
    rw [corruptKeys_append]
    simp [corruptKeys]

/-- A published envelope as a JavaScript object: fields that a given
message type does not set keep the default (absent in JS). A chat
message's `type` is the client-supplied message type (default "text"),
which is why the relay switch sends it to the default branch. -/
structure Envelope where
  type : String := ""
  id : String := ""
  userId : String := ""
  userName : String := ""
  roomId : String := ""
  content : String := ""
  serverId : String := ""
  timestamp : String := ""
  socketId : String := ""
  reason : String := ""
  userCount : Nat := 0
  isTyping : Bool := false
deriving Repr, DecidableEq

/-- The raw string received on the subscriber connection: either it
parses to an envelope or `JSON.parse` throws. -/
inductive PubMsg where
  | corrupt : PubMsg
  | ok : Envelope → PubMsg
deriving Repr, DecidableEq

/-- `channel.split(":")[1]` of the redis channel name. -/
def channelRoom (channel : String) : String :=
  (channel.splitOn ":").getD 1 ""

/-- One `io.to(roomId).emit(...)` performed by the relay handler, with
the target room and the event payload actually emitted. -/
inductive Emission where
  | userJoined (room userId userName roomId timestamp : String)
  | userLeft (room userId userName roomId timestamp reason : String)
  | roomInfo (room roomId : String) (userCount : Nat) (timestamp : String)
  | userTyping (room userId userName : String) (isTyping : Bool)
  | newMessage (room : String) (data : Envelope)
deriving Repr, DecidableEq

/-- The target room of an emission. -/
def emissionRoom : Emission → String
  | Emission.userJoined room _ _ _ _ => room
  | Emission.userLeft room _ _ _ _ _ => room
  | Emission.roomInfo room _ _ _ => room
  | Emission.userTyping room _ _ _ => room
  | Emission.newMessage room _ => room

/-- `setupRedisMessageHandler`'s subscriber "message" handler: parse the
message (a parse error is caught and nothing is emitted), drop it when
its serverId is this server's own id, otherwise re-emit it once to the
local clients of the channel's room according to its type. -/
def handleRedisMessage (sid channel : String) (msg : PubMsg) : List Emission :=
  match msg with
  | PubMsg.corrupt => []
  | PubMsg.ok d =>
    if d.serverId = sid then []
    else
      let room := channelRoom channel
      if d.type = "user_joined" then
        [Emission.userJoined room d.userId d.userName d.roomId d.timestamp]
      else if d.type = "user_left" then
        [Emission.userLeft room d.userId d.userName d.roomId d.timestamp d.reason]
      else if d.type = "room_info" then
        [Emission.roomInfo room d.roomId d.userCount d.timestamp]
      else if d.type = "user_typing" then
        [Emission.userTyping room d.userId d.userName d.isTyping]
      else
        [Emission.newMessage room d]

/-- C1: an envelope whose originServerId equals the receiving server's
id is discarded with no emission; an envelope from any other server is
re-emitted exactly once, to the local clients of the channel's room. -/
theorem self_origin_filter (sid channel : String) (d : Envelope) :
    (d.serverId = sid → handleRedisMessage sid channel (PubMsg.ok d) = [])
      ∧ (d.serverId ≠ sid →
          (handleRedisMessage sid channel (PubMsg.ok d)).length = 1
            ∧ ∀ e ∈ handleRedisMessage sid channel (PubMsg.ok d),
                emissionRoom e = channelRoom channel) := by
  constructor
  · intro h
    simp [handleRedisMessage, h]
  · intro h
    simp only [handleRedisMessage, if_neg h]
    constructor
    · repeat' split
      all_goals rfl
    · intro e he
      repeat' split at he
      all_goals simp at he
      all_goals simp [he, emissionRoom]

/-- An envelope published by server "alpha" in room "R1". -/
def alphaMsg : Envelope :=
  { type := "text", id := "m1", userId := "u1", userName := "Ann",
    roomId := "R1", content := "hello", serverId := "alpha",
    timestamp := "t0", socketId := "s1" }

theorem self_origin_filter_witness :
    handleRedisMessage "alpha" "room:R1" (PubMsg.ok alphaMsg) = []
      ∧ (handleRedisMessage "beta" "room:R1" (PubMsg.ok alphaMsg)).length = 1 :=
  ⟨(self_origin_filter "alpha" "room:R1" alphaMsg).1 rfl,
   ((self_origin_filter "beta" "room:R1" alphaMsg).2 (by decide)).1⟩

/-- The `connectionInfo` object built by the join_room handler and kept
in the local `activeConnections` map. -/
structure ConnectionInfo where
  userId : String
  roomId : String
  userName : String
  socketId : String
  joinedAt : String
  serverId : String
deriving Repr, DecidableEq

/-- An externally visible action of the send_message handler, in the
order performed. -/
inductive ClientAction where
  | emitErrorToSender (msg : String)
  | publishRoom (roomId : String) (m : Envelope)
  | emitNewMessageLocal (roomId : String) (m : Envelope)
deriving Repr, DecidableEq

/-- JavaScript String.prototype.trim: strips leading and trailing
whitespace. -/
def jsTrim (s : String) : String :=
  String.mk (((s.data.dropWhile Char.isWhitespace).reverse.dropWhile
    Char.isWhitespace).reverse)

/-- The message object the send_message handler constructs. -/
def builtMessage (sid newId ts : String) (c : ConnectionInfo)
    (socketId rawContent msgType : String) : Envelope :=
  { id := newId, userId := c.userId, userName := c.userName,
    roomId := c.roomId, content := jsTrim rawContent, type := msgType,
    serverId := sid, timestamp := ts, socketId := socketId }

/-- The send_message handler: an unknown socket gets an error event and
nothing else; empty (after trim) or absent content gets an error event;
otherwise the message is published, and on publish failure an error is
emitted and the handler returns before the local emit, while on success
the local clients of the room receive the new message. `publishOk` is
the boolean result of `publishToRoom`. -/
def sendMessage (sid : String) (conn : Option ConnectionInfo) (socketId : String)
    (content : Option String) (msgType : Option String) (newId ts : String)
    (publishOk : Bool) : List ClientAction :=
  match conn with
  | none => [ClientAction.emitErrorToSender "User not connected to any room"]
  | some c =>
    match content with
    | none => [ClientAction.emitErrorToSender "Message content cannot be empty"]
    | some raw =>
      if (jsTrim raw).length = 0 then
        [ClientAction.emitErrorToSender "Message content cannot be empty"]
      else
        let m := builtMessage sid newId ts c socketId raw (msgType.getD "text")
        if publishOk then
          [ClientAction.publishRoom c.roomId m,
           ClientAction.emitNewMessageLocal c.roomId m]
        else
          [ClientAction.publishRoom c.roomId m,
           ClientAction.emitErrorToSender "Failed to send message"]

/-- Whether an action is the local new-message emission. -/
def isLocalEmit : ClientAction → Bool
  | ClientAction.emitNewMessageLocal _ _ => true
  | _ => false

/-- C3: when the publish reports failure the sender gets an error event
and no new-message event is emitted locally; a local echo in the trace
implies the publish succeeded and the echo is the step right after the
publish. -/
theorem send_message_failure_blocks_echo (sid socketId raw newId ts : String)
    (c : ConnectionInfo) (msgType : Option String) (publishOk : Bool)
    (hne : (jsTrim raw).length ≠ 0) :
    (publishOk = false →
        sendMessage sid (some c) socketId (some raw) msgType newId ts publishOk
          = [ClientAction.publishRoom c.roomId
               (builtMessage sid newId ts c socketId raw (msgType.getD "text")),
             ClientAction.emitErrorToSender "Failed to send message"])
      ∧ (∀ r mm, ClientAction.emitNewMessageLocal r mm
            ∈ sendMessage sid (some c) socketId (some raw) msgType newId ts publishOk →
          publishOk = true
            ∧ sendMessage sid (some c) socketId (some raw) msgType newId ts publishOk
                = [ClientAction.publishRoom c.roomId
                     (builtMessage sid newId ts c socketId raw (msgType.getD "text")),
                   ClientAction.emitNewMessageLocal c.roomId
                     (builtMessage sid newId ts c socketId raw (msgType.getD "text"))]) := by
  constructor
  · intro hpub
    subst hpub
    simp [sendMessage, hne]
  · intro r mm hmem
    cases publishOk with
    | false =>
      simp [sendMessage, hne] at hmem
    | true =>
      exact ⟨rfl, by simp [sendMessage, hne]⟩

/-- A sample local connection record. -/
def connEx : ConnectionInfo :=
  ⟨"u1", "R1", "Ann", "sock1", "j0", "server-1"⟩

theorem send_message_failure_blocks_echo_witness :
    ((jsTrim "hello").length ≠ 0)
      ∧ sendMessage "server-1" (some connEx) "sock1" (some "hello") none "id1" "t1" false
          = [ClientAction.publishRoom "R1"
               (builtMessage "server-1" "id1" "t1" connEx "sock1" "hello" "text"),
             ClientAction.emitErrorToSender "Failed to send message"] :=
  ⟨by decide,
   (send_message_failure_blocks_echo "server-1" "sock1" "hello" "id1" "t1"
      connEx none false (by decide)).1 rfl⟩

/-- C4 counterexample: with a known connection, non-empty content and a
failed publish, the trace contains no local new-message emission, so the
local notification does not "still occur" as the claim states. -/
theorem send_message_local_emit_not_unconditional :
    (sendMessage "server-1" (some connEx) "sock1" (some "hello") none "id1" "t1"
        false).filter isLocalEmit = []
      ∧ ClientAction.emitErrorToSender "Failed to send message"
          ∈ sendMessage "server-1" (some connEx) "sock1" (some "hello") none "id1" "t1"
              false := by
  constructor
  · rfl
  · decide

/-- C4 amended: when the publish step fails the local notification does
NOT occur (the local emit is conditional on publish success) and the
failure is reported to the sending client. -/
theorem send_message_failure_reported (sid socketId newId ts : String)
    (c : ConnectionInfo) (content : Option String) (msgType : Option String)
    (hk : ∃ raw, content = some raw ∧ (jsTrim raw).length ≠ 0) :
    ClientAction.emitErrorToSender "Failed to send message"
        ∈ sendMessage sid (some c) socketId content msgType newId ts false
      ∧ (sendMessage sid (some c) socketId content msgType newId ts false).filter
          isLocalEmit = [] := by
  obtain ⟨raw, hc, hne⟩ := hk
  subst hc
  constructor
  · simp [sendMessage, hne]
  · simp [sendMessage, hne, isLocalEmit]

theorem send_message_failure_reported_witness :
    (∃ raw, (some "hello" : Option String) = some raw ∧ (jsTrim raw).length ≠ 0)
      ∧ ClientAction.emitErrorToSender "Failed to send message"
          ∈ sendMessage "server-1" (some connEx) "sock1" (some "hello") none "id1"
              "t1" false :=
  ⟨⟨"hello", rfl, by decide⟩,
   (send_message_failure_reported "server-1" "sock1" "id1" "t1" connEx
      (some "hello") none ⟨"hello", rfl, by decide⟩).1⟩

/-- An externally visible action of the disconnect handler. -/
inductive DiscAction where
  | removeLocal (socketId : String)
  | removeRegistry (socketId : String)
  | computeStats (roomId : String)
  | publishRoom (roomId : String) (e : Envelope)
deriving Repr, DecidableEq

/-- The disconnect handler: with no local record for the socket only a
log line is produced (no state change, no publish, no client event);
with a record, local and registry entries are removed, then user_left
and a recomputed room_info are published. `userCount` is the count the
getRoomStats call returns. -/
def disconnectHandler (sid socketId : String) (conn : Option ConnectionInfo)
    (reason ts ts2 : String) (userCount : Nat) : List DiscAction :=
  match conn with
  | none => []
  | some c =>
    [DiscAction.removeLocal socketId,
     DiscAction.removeRegistry socketId,
     DiscAction.publishRoom c.roomId
       { type := "user_left", userId := c.userId, userName := c.userName,
         roomId := c.roomId, serverId := sid, timestamp := ts, reason := reason },
     DiscAction.computeStats c.roomId,
     DiscAction.publishRoom c.roomId
       { type := "room_info", roomId := c.roomId, userCount := userCount,
         serverId := sid, timestamp := ts2 }]

/-- C9 counterexample: a send_message from a socket with no local record
does surface an error event to that client, contrary to the claim that
no error event is surfaced. -/
theorem unknown_connection_error_is_surfaced :
    ClientAction.emitErrorToSender "User not connected to any room"
      ∈ sendMessage "server-1" none "sock9" (some "hi") none "id9" "t9" true := by
  decide

/-- C9 amended: a disconnect from a socket with no local record is a
pure no-op (nothing is removed, published, or emitted); a send_message
from a socket with no local record mutates no local or registry state
and publishes no envelope, but does emit an error event to the sending
client. -/
theorem unknown_connection_handling (sid socketId reason ts ts2 : String)
    (userCount : Nat) (content : Option String) (msgType : Option String)
    (newId mts : String) (publishOk : Bool) :
    disconnectHandler sid socketId none reason ts ts2 userCount = []
      ∧ sendMessage sid none socketId content msgType newId mts publishOk
          = [ClientAction.emitErrorToSender "User not connected to any room"] :=
  ⟨rfl, rfl⟩

/-- An externally visible action of the join_room handler, in the order
performed. -/
inductive JoinAction where
  | emitErrorToSender (msg : String)
  | storeLocal (socketId : String) (info : ConnectionInfo)
  | storeRegistry (socketId : String) (info : ConnectionInfo)
  | joinLocalRoom (roomId : String)
  | subscribeRoom (roomId : String)
  | emitJoinedRoom (roomId sid ts : String)
  | computeStats (roomId : String)
  | publishRoom (roomId : String) (e : Envelope)
deriving Repr, DecidableEq

/-- The join_room handler: validation first (a missing or empty field is
falsy in JS), then local store, registry store, local socket join, the
Redis subscription when the room is new to this server, the joined_room
confirmation to the requester, the stats recomputation, and finally the
user_joined and room_info publishes. -/
def joinRoom (sid socketId : String) (userId roomId userName : Option String)
    (alreadySubscribed : Bool) (joinedAt ackTs joinMsgTs roomInfoTs : String)
    (statsUserCount : Nat) : List JoinAction :=
  match userId, roomId, userName with
  | some u, some r, some n =>
    if u = "" ∨ r = "" ∨ n = "" then
      [JoinAction.emitErrorToSender "Missing required fields"]
    else
      let info : ConnectionInfo := ⟨u, r, n, socketId, joinedAt, sid⟩
      [JoinAction.storeLocal socketId info,
       JoinAction.storeRegistry socketId info,
       JoinAction.joinLocalRoom r]
      ++ (if alreadySubscribed then [] else [JoinAction.subscribeRoom r])
      ++ [JoinAction.emitJoinedRoom r sid ackTs,
          JoinAction.computeStats r,
          JoinAction.publishRoom r
            { type := "user_joined", userId := u, userName := n, roomId := r,
              serverId := sid, timestamp := joinMsgTs },
          JoinAction.publishRoom r
            { type := "room_info", roomId := r, userCount := statsUserCount,
              serverId := sid, timestamp := roomInfoTs }]
  | _, _, _ => [JoinAction.emitErrorToSender "Missing required fields"]

/-- Whether a join action is a fleet-wide publish. -/
def isJoinPublish : JoinAction → Bool
  | JoinAction.publishRoom _ _ => true
  | _ => false

/-- C6: for a valid join request the joined_room confirmation is emitted
strictly before the user_joined and room_info envelopes are published:
the trace splits around the confirmation, no action before it is a
publish, and both publishes occur after it. -/
theorem joined_ack_before_publishes (sid socketId u r n : String)
    (alreadySubscribed : Bool) (joinedAt ackTs joinMsgTs roomInfoTs : String)
    (statsUserCount : Nat) (hu : u ≠ "") (hr : r ≠ "") (hn : n ≠ "") :
    ∃ pre post,
      joinRoom sid socketId (some u) (some r) (some n) alreadySubscribed
          joinedAt ackTs joinMsgTs roomInfoTs statsUserCount
        = pre ++ JoinAction.emitJoinedRoom r sid ackTs :: post
      ∧ (∀ a ∈ pre, isJoinPublish a = false)
      ∧ JoinAction.publishRoom r
          { type := "user_joined", userId := u, userName := n, roomId := r,
            serverId := sid, timestamp := joinMsgTs } ∈ post
      ∧ JoinAction.publishRoom r
          { type := "room_info", roomId := r, userCount := statsUserCount,
            serverId := sid, timestamp := roomInfoTs } ∈ post := by
  refine ⟨[JoinAction.storeLocal socketId ⟨u, r, n, socketId, joinedAt, sid⟩,
           JoinAction.storeRegistry socketId ⟨u, r, n, socketId, joinedAt, sid⟩,
           JoinAction.joinLocalRoom r]
          ++ (if alreadySubscribed then [] else [JoinAction.subscribeRoom r]),
         [JoinAction.computeStats r,
          JoinAction.publishRoom r
            { type := "user_joined", userId := u, userName := n, roomId := r,
              serverId := sid, timestamp := joinMsgTs },
          JoinAction.publishRoom r
            { type := "room_info", roomId := r, userCount := statsUserCount,
              serverId := sid, timestamp := roomInfoTs }], ?_, ?_, ?_, ?_⟩
  · cases alreadySubscribed <;> simp [joinRoom, hu, hr, hn]
  · intro a ha
    simp only [List.mem_append, List.mem_cons, List.not_mem_nil] at ha
    rcases ha with (h | h | h | h) | h
    · simp [h, isJoinPublish]
    · simp [h, isJoinPublish]
    · simp [h, isJoinPublish]
    · exact absurd h not_false
    · cases alreadySubscribed
      · simp at h
        simp [h, isJoinPublish]
      · simp at h
  · simp
  · simp

theorem joined_ack_before_publishes_witness :
    ("u1" : String) ≠ ""
      ∧ ∃ pre post,
          joinRoom "server-1" "sock1" (some "u1") (some "R1") (some "Ann") false
              "j0" "a0" "p0" "q0" 2
            = pre ++ JoinAction.emitJoinedRoom "R1" "server-1" "a0" :: post
          ∧ (∀ a ∈ pre, isJoinPublish a = false)
          ∧ JoinAction.publishRoom "R1"
              { type := "user_joined", userId := "u1", userName := "Ann",
                roomId := "R1", serverId := "server-1", timestamp := "p0" } ∈ post
          ∧ JoinAction.publishRoom "R1"
              { type := "room_info", roomId := "R1", userCount := 2,
                serverId := "server-1", timestamp := "q0" } ∈ post :=
  ⟨by decide,
   joined_ack_before_publishes "server-1" "sock1" "u1" "R1" "Ann" false
     "j0" "a0" "p0" "q0" 2 (by decide) (by decide) (by decide)⟩

/-- The per-process subscription state: the number of "message"
listeners attached to the subscriber connection, the channels passed to
the backend SUBSCRIBE command in order, and the server's subscribedRooms
set (as a list in insertion order). -/
structure SubState where
  handlerCount : Nat
  backendSubs : List String
  subscribedRooms : List String
deriving Repr, DecidableEq

/-- The channel name for a room. -/
def roomChannel (roomId : String) : String := "room:" ++ roomId

/-- `RedisManager.subscribeToRoom`: attaches its message handler only
when no "message" listener exists yet (listenerCount check), then always
issues the backend SUBSCRIBE for the room channel. -/
def subscribeToRoom (s : SubState) (roomId : String) : SubState :=
  let s1 := if s.handlerCount = 0 then { s with handlerCount := 1 } else s
  { s1 with backendSubs := s1.backendSubs ++ [roomChannel roomId] }

/-- The join_room handler's subscription step: `subscribeToRoom` is only
called when the room is not yet in subscribedRooms, which is then
updated. -/
def joinSubscribe (s : SubState) (roomId : String) : SubState :=
  if roomId ∈ s.subscribedRooms then s
  else
    { subscribeToRoom s roomId with
        subscribedRooms := s.subscribedRooms ++ [roomId] }

/-- The process state right after `setupRedisMessageHandler` has
attached the single main "message" handler at startup. -/
def setupState : SubState := ⟨1, [], []⟩

/-- Each envelope received on the subscriber connection invokes every
attached "message" listener once. -/
def handlerInvocationsPerEnvelope (s : SubState) : Nat := s.handlerCount

lemma string_append_cancel (a b c : String) (h : a ++ b = a ++ c) : b = c := by
  have hd := congrArg String.data h
  simp only [String.data_append] at hd
  exact String.ext (List.append_cancel_left hd)

lemma roomChannel_inj (r₁ r₂ : String) (h : roomChannel r₁ = roomChannel r₂) :
    r₁ = r₂ :=
  string_append_cancel "room:" r₁ r₂ h

/-- The reachable-state invariant: exactly one handler is attached, and
the backend SUBSCRIBE has been issued exactly once per subscribed room. -/
def SubInv (s : SubState) : Prop :=
  s.handlerCount = 1
    ∧ ∀ r, s.backendSubs.count (roomChannel r)
        = if r ∈ s.subscribedRooms then 1 else 0

lemma joinSubscribe_inv (s : SubState) (r0 : String) (h : SubInv s) :
    SubInv (joinSubscribe s r0) := by
  obtain ⟨h1, h2⟩ := h
  unfold joinSubscribe
  by_cases hmem : r0 ∈ s.subscribedRooms
  · rw [if_pos hmem]; exact ⟨h1, h2⟩
  · rw [if_neg hmem]
    refine ⟨?_, ?_⟩
    · simp [subscribeToRoom, h1]
    · intro r
      simp only [subscribeToRoom, h1]
      rw [if_neg (by omega)]
      simp only [List.count_append, h2 r]
      by_cases hr : r = r0
      · subst hr
        simp [hmem, List.count_singleton]
      · have hch : roomChannel r ≠ roomChannel r0 := fun hc => hr (roomChannel_inj _ _ hc)
        have hmm : (r ∈ s.subscribedRooms ++ [r0]) ↔ r ∈ s.subscribedRooms := by
          simp [hr]
        rw [List.count_singleton']
        simp [hmm, Ne.symm hch]

lemma joinSubscribe_mem (s : SubState) (r0 r : String) :
    r ∈ (joinSubscribe s r0).subscribedRooms
      ↔ (r ∈ s.subscribedRooms ∨ r = r0) := by
  unfold joinSubscribe
  by_cases hmem : r0 ∈ s.subscribedRooms
  · rw [if_pos hmem]
    constructor
    · exact Or.inl
    · rintro (h | h)
      · exact h
      · exact h ▸ hmem
  · rw [if_neg hmem]
    simp

lemma foldl_joinSubscribe (rooms : List String) :
    ∀ s : SubState, SubInv s →
      SubInv (rooms.foldl joinSubscribe s)
        ∧ ∀ r, (r ∈ (rooms.foldl joinSubscribe s).subscribedRooms
            ↔ r ∈ s.subscribedRooms ∨ r ∈ rooms) := by
  induction rooms with
  | nil =>
    intro s hs
    exact ⟨hs, fun r => by simp⟩
  | cons r0 rest ih =>
    intro s hs
    have hstep := joinSubscribe_inv s r0 hs
    obtain ⟨hinv, hmem⟩ := ih (joinSubscribe s r0) hstep
    refine ⟨hinv, fun r => ?_⟩
    rw [List.foldl_cons] at *
    rw [hmem r, joinSubscribe_mem]
    simp only [List.mem_cons]
    tauto

/-- C5: the subscription step for a room is idempotent (a second call is
the identity and re-issues nothing), the backend SUBSCRIBE is issued
exactly once per room ever joined no matter how often rooms repeat, and
exactly one message handler is attached, so each received envelope
triggers exactly one handler invocation. -/
theorem subscribe_idempotent (rooms : List String) (s : SubState) (r : String) :
    joinSubscribe (joinSubscribe s r) r = joinSubscribe s r
      ∧ handlerInvocationsPerEnvelope (rooms.foldl joinSubscribe setupState) = 1
      ∧ (rooms.foldl joinSubscribe setupState).backendSubs.count (roomChannel r)
          = (if r ∈ rooms then 1 else 0) := by
  have hsetup : SubInv setupState := by
    refine ⟨rfl, fun r' => ?_⟩
    simp [setupState]
  obtain ⟨⟨h1, h2⟩, hmem⟩ := foldl_joinSubscribe rooms setupState hsetup
  refine ⟨?_, h1, ?_⟩
  · have hid : ∀ t : SubState, r ∈ t.subscribedRooms → joinSubscribe t r = t := by
      intro t ht
      unfold joinSubscribe
      rw [if_pos ht]
    refine hid _ ?_
    rw [joinSubscribe_mem]
    exact Or.inr rfl
  · rw [h2 r]
    have hiff : r ∈ (rooms.foldl joinSubscribe setupState).subscribedRooms ↔ r ∈ rooms := by
      rw [hmem r]
      simp [setupState]
    simp [hiff]

/-- One key in the key/value store with its absolute expiry time (in
seconds). -/
structure StoredEntry where
  key : String
  value : RawVal
  expiresAt : Nat
deriving Repr, DecidableEq

/-- Redis SETEX at absolute time `now`: the key lives for `ttlSeconds`
seconds. -/
def setex (now ttlSeconds : Nat) (key : String) (v : RawVal) : StoredEntry :=
  ⟨key, v, now + ttlSeconds⟩

/-- `RedisManager.storeConnection`'s write: `connection:{socketId}` via
SETEX with the fixed 1-hour (3600 second) expiration. -/
def storeConnectionEntry (now : Nat) (socketId : String) (v : RegValue) :
    StoredEntry :=
  setex now 3600 ("connection:" ++ socketId) (RawVal.ok v)

/-- Whether a stored entry is still visible at absolute time `now`. -/
def isLive (now : Nat) (e : StoredEntry) : Bool :=
  decide (now < e.expiresAt)

/-- The entries a scan performed at absolute time `now` can observe. -/
def liveEntries (now : Nat) (store : List StoredEntry) : List StoredEntry :=
  store.filter (isLive now)

/-- C8: every registry write of storeConnection carries an expiry of
exactly 3600 seconds (1 hour) past the write time, so an entry written
at time t and never explicitly removed is absent from every scan at or
after t + 3600. -/
theorem storeConnection_ttl (t : Nat) (socketId : String) (v : RegValue) :
    (storeConnectionEntry t socketId v).expiresAt = t + 3600
      ∧ ∀ (now : Nat) (store : List StoredEntry),
          t + 3600 ≤ now →
            storeConnectionEntry t socketId v ∉ liveEntries now store := by
  refine ⟨rfl, fun now store hle hmem => ?_⟩
  have hlive := List.of_mem_filter hmem
  simp only [isLive, storeConnectionEntry, setex, decide_eq_true_eq] at hlive
  omega

/-- A sample registry value. -/
def regValEx : RegValue :=
  ⟨"u1", "R1", "Ann", "sock1", "j0", "server-1", "t0"⟩

theorem storeConnection_ttl_witness :
    (storeConnectionEntry 0 "sock1" regValEx).expiresAt = 0 + 3600
      ∧ (0 + 3600 ≤ 3600)
      ∧ storeConnectionEntry 0 "sock1" regValEx
          ∉ liveEntries 3600 [storeConnectionEntry 0 "sock1" regValEx] :=
  ⟨(storeConnection_ttl 0 "sock1" regValEx).1, by decide,
   (storeConnection_ttl 0 "sock1" regValEx).2 3600 _ (by decide)⟩

/-- `RedisManager.storeConnection`'s stored value: the spread of the
supplied connectionInfo with `serverId` overridden by the SERVER_ID
environment variable (default "server-1") and `timestamp` set to the
write time. -/
def storeConnectionValue (envServerId : Option String) (now : String)
    (info : ConnectionInfo) : RegValue :=
  ⟨info.userId, info.roomId, info.userName, info.socketId, info.joinedAt,
    envServerId.getD "server-1", now⟩

/-- The base-36 fractional digit expansion of r / 2^53 as produced by
Number.prototype.toString(36) on a 53-bit random fraction: digits are
emitted until the remainder is zero (the expansion of a dyadic rational
in base 36 terminates, so fuel 60 is never exhausted for r < 2^53). -/
def fracDigits : Nat → Nat → List Nat
  | _, 0 => []
  | r, fuel + 1 =>
    if r = 0 then []
    else (36 * r / 2 ^ 53) :: fracDigits (36 * r % 2 ^ 53) fuel

/-- The character for one base-36 digit (0-9 then a-z). -/
def digitChar (d : Nat) : Char :=
  if d < 10 then Char.ofNat (48 + d) else Char.ofNat (87 + d)

/-- `Math.random().toString(36).substr(2, 5)`: the first five
fractional base-36 digits of the 53-bit random fraction n / 2^53. -/
def randomSuffix (n : Nat) : String :=
  String.mk (((fracDigits (n % 2 ^ 53) 60).take 5).map digitChar)

/-- index.js SERVER_ID: the SERVER_ID environment variable when set,
otherwise "server-" followed by the random base-36 suffix. -/
def serverIdOf (envServerId : Option String) (n : Nat) : String :=
  match envServerId with
  | some s => s
  | none => "server-" ++ randomSuffix n

lemma fracDigits_succ (r fuel : Nat) :
    fracDigits r (fuel + 1)
      = if r = 0 then []
        else (36 * r / 2 ^ 53) :: fracDigits (36 * r % 2 ^ 53) fuel := rfl

lemma fracDigits_eq_nil (r fuel : Nat) (hf : fuel ≠ 0)
    (h : fracDigits r fuel = []) : r = 0 := by
  cases fuel with
  | zero => exact absurd rfl hf
  | succ f =>
    rw [fracDigits_succ] at h
    by_contra hz
    rw [if_neg hz] at h
    exact List.cons_ne_nil _ _ h

lemma fracDigits_nil_of_zero (fuel : Nat) : fracDigits 0 fuel = [] := by
  cases fuel with
  | zero => rfl
  | succ f => rw [fracDigits_succ, if_pos rfl]

lemma dyadic_first_digit_ne_one (x : Nat) (hx : x < 2 ^ 53)
    (hdig : digitChar (36 * x / 2 ^ 53) = '1')
    (hmm : 36 * x % 2 ^ 53 = 0) : False := by
  have h2pow : (2 : Nat) ^ 53 = 9007199254740992 := by norm_num
  have hdlt : 36 * x / 2 ^ 53 < 36 := by
    clear hmm
    apply Nat.div_lt_of_lt_mul
    omega
  have hdeq : 36 * x / 2 ^ 53 = 1 := by
    clear hmm
    set d := 36 * x / 2 ^ 53 with hddef
    interval_cases d
    all_goals first
      | rfl
      | exact absurd hdig (by decide)
  have hsum := Nat.div_add_mod (36 * x) (2 ^ 53)
  rw [hdeq, hmm, h2pow] at hsum
  clear hdig hmm hdlt hdeq
  omega

lemma randomSuffix_ne_one (n : Nat) : randomSuffix n ≠ "1" := by
  intro h
  unfold randomSuffix at h
  have hl : ((fracDigits (n % 2 ^ 53) 60).take 5).map digitChar = ['1'] := by
    have hdata := congrArg String.data h
    simpa using hdata
  have hrlt : n % 2 ^ 53 < 2 ^ 53 := Nat.mod_lt _ (by positivity)
  by_cases hr0 : n % 2 ^ 53 = 0
  · rw [hr0, fracDigits_nil_of_zero] at hl
    simp at hl
  · rw [show (60 : Nat) = 59 + 1 from rfl, fracDigits_succ, if_neg hr0,
      show (5 : Nat) = 4 + 1 from rfl, List.take_succ_cons] at hl
    simp only [List.map_cons, List.cons.injEq] at hl
    obtain ⟨hd1, hrest⟩ := hl
    have hrestnil : fracDigits (36 * (n % 2 ^ 53) % 2 ^ 53) 59 = [] := by
      have htake := List.map_eq_nil_iff.mp hrest
      rcases List.take_eq_nil_iff.mp htake with h4 | hnil
      · exact absurd h4 (by omega)
      · exact hnil
    exact dyadic_first_digit_ne_one (n % 2 ^ 53) hrlt hd1
      (fracDigits_eq_nil _ 59 (by omega) hrestnil)

/-- C10: the registry value written by storeConnection has its serverId
replaced by the SERVER_ID environment variable (or "server-1" when
unset) and its timestamp replaced by the write time, regardless of the
serverId and joinedAt in the supplied info; with SERVER_ID unset the
stored owningServerId "server-1" differs from the random id the relay
layer stamps on envelopes, for every possible 53-bit random fraction. -/
theorem storeConnection_overrides (envServerId : Option String) (now : String)
    (info : ConnectionInfo) (n : Nat) :
    (storeConnectionValue envServerId now info).serverId
        = envServerId.getD "server-1"
      ∧ (storeConnectionValue envServerId now info).timestamp = now
      ∧ (envServerId = none →
          (storeConnectionValue envServerId now info).serverId = "server-1"
            ∧ serverIdOf none n
                ≠ (storeConnectionValue envServerId now info).serverId) := by
  refine ⟨rfl, rfl, fun henv => ?_⟩
  subst henv
  refine ⟨rfl, fun hcontra => ?_⟩
  have hsplit : ("server-1" : String) = "server-" ++ "1" := rfl
  rw [show (storeConnectionValue none now info).serverId = "server-1" from rfl,
    hsplit] at hcontra
  exact randomSuffix_ne_one n
    (string_append_cancel "server-" (randomSuffix n) "1" hcontra)

theorem storeConnection_overrides_witness :
    ((none : Option String) = none)
      ∧ (storeConnectionValue none "t9" connEx).serverId = "server-1"
      ∧ serverIdOf none 12345 ≠ (storeConnectionValue none "t9" connEx).serverId :=
  ⟨rfl,
   ((storeConnection_overrides none "t9" connEx 12345).2.2 rfl).1,
   ((storeConnection_overrides none "t9" connEx 12345).2.2 rfl).2⟩

end ClinicMessenger
